import Mathlib

/-!
Shallow embedding of filament's DataReshaper, in the two versions present in
this repository: the newer header with per-type rescaling and a typed
dispatcher (src/unnamed/part_000) and the older copy-only header
(src/filament/backend/src/DataReshaper.h).

Modelling choices:
* Destination and source buffers are byte-addressed memories (Nat -> Nat); a
  component store writes the little-endian bytes of the component's bit
  pattern, exactly as the typed pointer stores of the source do.  Well-formed
  memories hold bytes below 256; claims that need this state it as a
  hypothesis.
* The per-channel scalar conversion of part_000 line 77,
  in[inds[channel]] * dstMaxValue / srcMaxValue, is a parameter (conv) of the
  kernel; for the integer component-type pairs it is instantiated with an
  exact model of the C++ arithmetic (cppConvExprPat, including integer
  promotion, the unsigned/signed common type, wraparound, and truncating
  division).  For pairs involving 32-bit floats the conversion stays an
  abstract function: no claim proved here depends on IEEE rounding, and every
  theorem quantifying over those pairs holds for every such function.
* Machine integers are Nat / Int with explicit reductions modulo 2^width.
-/

/-- A byte-addressed memory: address to stored byte. -/
def Mem : Type := Nat → Nat

/-- Read the unsigned little-endian value held in s consecutive bytes at
address a. -/
def readComp (m : Mem) (a : Nat) : Nat → Nat
  | 0 => 0
  | s+1 => m a + 256 * readComp m (a+1) s

/-- Store the s little-endian bytes of v at addresses a, a+1, ..., a+s-1,
as the source's typed component store does. -/
def writeComp (m : Mem) (a s v : Nat) : Mem :=
  fun x => if a ≤ x ∧ x < a + s then (v / 256 ^ (x - a)) % 256 else m x

/-- The component types for which getMaxValue is specialized
(part_000 lines 30-35). -/
inductive CompType
  | ubyte
  | half
  | float32
  | int32
  | uint32
deriving DecidableEq

/-- Value carrier of each component type.  32-bit floats are modelled by exact
rationals; the 16-bit half type is kept as its raw bit pattern, matching the
source, which stores and rescales the uint16_t pattern without interpreting
it as a half-float number. -/
@[reducible] def CompType.carrier : CompType → Type
  | .ubyte => Nat
  | .half => Nat
  | .float32 => ℚ
  | .int32 => Int
  | .uint32 => Nat

/-- getMaxValue (part_000 lines 30-35); the older header's getDefaultAlpha
(DataReshaper.h lines 28-33) has the identical table. -/
def getMaxValue : (t : CompType) → t.carrier
  | .ubyte => 0xff
  | .half => 0x3c00
  | .float32 => 1
  | .int32 => 0x7fffffff
  | .uint32 => 0xffffffff

/-- The integer component types appearing in the dispatcher's kernel pairs:
uint8_t, int32_t, uint32_t. -/
inductive IntCT
  | u8
  | i32
  | u32
deriving DecidableEq

/-- Bit width of each integer component type. -/
def IntCT.bits : IntCT → Nat
  | .u8 => 8
  | .i32 => 32
  | .u32 => 32

/-- Integer value of getMaxValue for the integer component types. -/
def maxValInt : IntCT → Int
  | .u8 => 255
  | .i32 => 0x7fffffff
  | .u32 => 0xffffffff

/-- Whether the type promotes to (signed) int under C++ integer promotion:
uint8_t and int32_t do, uint32_t stays unsigned int. -/
def IntCT.promotesToInt : IntCT → Bool
  | .u8 => true
  | .i32 => true
  | .u32 => false

/-- Reduce a signed 32-bit computation to its two's complement value (what the
source's int arithmetic produces on every shipping compiler). -/
def wrap32s (x : Int) : Int :=
  if x % 4294967296 < 2147483648 then x % 4294967296 else x % 4294967296 - 4294967296

/-- C++ unsigned 32-bit wraparound. -/
def wrap32u (x : Int) : Int := x % 4294967296

/-- C++ integer division: truncation toward zero (all divisors reached here
are positive). -/
def cppDivT (a b : Int) : Int :=
  if 0 ≤ a then ((a.toNat / b.toNat : Nat) : Int)
  else -(((-a).toNat / b.toNat : Nat) : Int)

/-- Decode a stored bit pattern as a value of the given integer type. -/
def patToVal : IntCT → Nat → Int
  | .u8, p => ((p % 256 : Nat) : Int)
  | .i32, p => wrap32s ((p : Nat) : Int)
  | .u32, p => ((p % 4294967296 : Nat) : Int)

/-- Encode an integer value as the stored bit pattern of the given type
(the C++ conversion to an unsigned type, and the two's complement pattern for
int32_t). -/
def valToPat (t : IntCT) (v : Int) : Nat :=
  (v % (((2 ^ t.bits : Nat) : Nat) : Int)).toNat

/-- Value computed by part_000 line 77, in * dstMaxValue / srcMaxValue, for a
pair of integer component types, following the C++ usual arithmetic
conversions: both multiply operands promote (uint8_t to int); the common type
is int when both operands promote to int, and unsigned int otherwise; the
division reuses the same common type; signed overflow is modelled as two's
complement wrap. -/
def cppExprVal (dt st : IntCT) (v : Int) : Int :=
  let signed := st.promotesToInt && dt.promotesToInt
  let cv : Int → Int := fun x => if signed then wrap32s x else wrap32u x
  cppDivT (cv (cv v * cv (maxValInt dt))) (cv (maxValInt st))

/-- Line 77 on stored bit patterns: decode the source component, evaluate the
C++ expression, and encode the destination-typed result. -/
def cppConvExprPat (dt st : IntCT) (p : Nat) : Nat :=
  valToPat dt (cppExprVal dt st (patToVal st p))

/-- Modelled from the spec: the PixelDataFormat enumeration is declared
outside the provided sources.  The dispatcher names only RGB and RGBA; the
other constructors stand for the remaining, unsupported formats. -/
inductive PixelDataFormat
  | R
  | RG
  | RGB
  | RGBA
  | DEPTH
deriving DecidableEq

/-- Modelled from the spec: the PixelDataType enumeration is declared outside
the provided sources.  UBYTE, FLOAT, INT, UINT are the types the dispatcher
supports; the other constructors stand for the remaining, unsupported
types. -/
inductive PixelDataType
  | UBYTE
  | BYTE
  | USHORT
  | SHORT
  | UINT
  | INT
  | HALF
  | FLOAT
deriving DecidableEq

/-- Modelled from the spec: the PixelBufferDescriptor fields that the
dispatcher reads (format, type, buffer, stride, alignment). -/
structure PixelBufferDescriptor where
  format : PixelDataFormat
  type : PixelDataType
  stride : Nat
  alignment : Nat
  buffer : Mem

/-- Channel count of the destination format (dispatcher lines 92-97): RGB maps
to 3, RGBA to 4, anything else is rejected. -/
def formatChannels : PixelDataFormat → Option Nat
  | .RGB => some 3
  | .RGBA => some 4
  | _ => none

/-- The numeric types that have kernels in the dispatcher's switch
(lines 99-140). -/
def supportedType : PixelDataType → Bool
  | .UBYTE => true
  | .FLOAT => true
  | .INT => true
  | .UINT => true
  | _ => false

/-- sizeof of the component type behind each supported numeric type. -/
def typeSize : PixelDataType → Nat
  | .UBYTE => 1
  | .FLOAT => 4
  | .INT => 4
  | .UINT => 4
  | _ => 0

/-- Bit pattern of getMaxValue for each supported numeric type; 0x3f800000 is
the IEEE-754 binary32 pattern of 1.0f. -/
def maxValuePat : PixelDataType → Nat
  | .UBYTE => 0xff
  | .FLOAT => 0x3f800000
  | .INT => 0x7fffffff
  | .UINT => 0xffffffff
  | _ => 0

/-- The integer component type (if any) behind a supported numeric type. -/
def intCTOf : PixelDataType → Option IntCT
  | .UBYTE => some .u8
  | .INT => some .i32
  | .UINT => some .u32
  | _ => none

/-- Per-pair scalar conversion of line 77 as selected by the dispatcher.
Integer pairs follow the exact C++ semantics (cppConvExprPat); pairs involving
FLOAT take the caller-supplied fconv, which abstracts the IEEE float
arithmetic of line 77. -/
def convOf (fconv : PixelDataType → PixelDataType → Nat → Nat)
    (dt st : PixelDataType) : Nat → Nat :=
  match intCTOf dt, intCTOf st with
  | some d, some s => cppConvExprPat d s
  | _, _ => fconv dt st

/-- Arguments of reshapeImage<dstComponentType, srcComponentType> (part_000
lines 61-63): the template types are represented by their sizes, the line-77
scalar conversion on bit patterns, and the destination getMaxValue pattern
(dmax, the fill value of lines 79-81). -/
structure KernelArgs where
  dstSize : Nat
  srcSize : Nat
  conv : Nat → Nat
  dmax : Nat
  srcMem : Mem
  srcBPR : Nat
  dstBPR : Nat
  dstCC : Nat
  height : Nat
  swizzle : Bool

namespace DataReshaper

/-- Line 70: inds = swizzle03 ? {2,1,0,3} : {0,1,2,3}, the read-side channel
index map. -/
def inds (sw : Bool) : Nat → Nat
  | 0 => if sw then 2 else 0
  | 2 => if sw then 0 else 2
  | c => c

/-- Line 67: width = (srcBytesPerRow / sizeof(dstComponentType)) /
srcChannelCount, with srcChannelCount = 4.  Note that the source divides by
the destination component size. -/
def width (A : KernelArgs) : Nat := A.srcBPR / A.dstSize / 4

/-- Line 68: minChannelCount = min(srcChannelCount, dstChannelCount) with
srcChannelCount = 4. -/
def minCC (A : KernelArgs) : Nat := min 4 A.dstCC

/-- Byte address read by in[inds[channel]] at (row, column): in starts at
src + row * srcBytesPerRow and advances 4 source components per column. -/
def srcAddr (A : KernelArgs) (r c ch : Nat) : Nat :=
  r * A.srcBPR + (4 * c + inds A.swizzle ch) * A.srcSize

/-- Byte address written by out[channel] at (row, column): out starts at
dest + row * dstBytesPerRow and advances dstChannelCount components per
column. -/
def dstAddr (A : KernelArgs) (r c ch : Nat) : Nat :=
  r * A.dstBPR + (c * A.dstCC + ch) * A.dstSize

/-- Bit pattern stored by line 77 into out[channel] at (row, column). -/
def chanVal (A : KernelArgs) (r c ch : Nat) : Nat :=
  A.conv (readComp A.srcMem (srcAddr A r c ch) A.srcSize)

/-- First channel loop (lines 75-78): channels [0, n) of one pixel. -/
def chanLoop (A : KernelArgs) (r c : Nat) (m : Mem) : Nat → Mem
  | 0 => m
  | k+1 => writeComp (chanLoop A r c m k) (dstAddr A r c k) A.dstSize (chanVal A r c k)

/-- Second channel loop (lines 79-81): channels [4, 4+n), filled with
dstMaxValue.  Dead for dstChannelCount <= 4 but structurally present. -/
def chanFill (A : KernelArgs) (r c : Nat) (m : Mem) : Nat → Mem
  | 0 => m
  | k+1 => writeComp (chanFill A r c m k) (dstAddr A r c (4 + k)) A.dstSize A.dmax

/-- One column iteration (lines 74-84). -/
def writePixel (A : KernelArgs) (r c : Nat) (m : Mem) : Mem :=
  chanFill A r c (chanLoop A r c m (minCC A)) (A.dstCC - 4)

/-- Column loop: columns [0, n) of row r, in ascending order. -/
def colLoop (A : KernelArgs) (r : Nat) (m : Mem) : Nat → Mem
  | 0 => m
  | k+1 => writePixel A r k (colLoop A r m k)

/-- Row loop (lines 71-87): rows [0, n), each processing width columns. -/
def rowLoop (A : KernelArgs) (m : Mem) : Nat → Mem
  | 0 => m
  | k+1 => colLoop A k (rowLoop A m k) (width A)

/-- reshapeImage<dstComponentType, srcComponentType> (part_000 lines 61-88),
as a transformation of the destination memory. -/
def reshapeImage (A : KernelArgs) (m : Mem) : Mem := rowLoop A m A.height

/-- reshapeImage<dstComponentType> of the older header
(src/filament/backend/src/DataReshaper.h lines 59-84).  Its loop structure is
line for line that of the newer kernel with a single component type; its
line 73 stores in[inds[channel]] itself, so it is the generic loop with the
identity conversion; its fill value is getDefaultAlpha, passed as dmax. -/
def reshapeImageOld (compSize dmax : Nat) (srcMem : Mem)
    (srcBPR dstBPR dstCC height : Nat) (sw : Bool) (m : Mem) : Mem :=
  reshapeImage ⟨compSize, compSize, fun v => v, dmax, srcMem, srcBPR, dstBPR, dstCC, height, sw⟩ m

/-- Pointwise update of a component-addressed buffer. -/
def writeAt {α : Type} (m : Nat → α) (i : Nat) (v : α) : Nat → α :=
  fun x => if x = i then v else m x

/-- Copy loop of reshape (part_000 lines 50-52): out[channel] = in[channel]
for channel < n, at the given word's bases. -/
def copyChans {α : Type} (src : Nat → α) (inBase outBase : Nat)
    (m : Nat → α) : Nat → Nat → α
  | 0 => m
  | k+1 => writeAt (copyChans src inBase outBase m k) (outBase + k) (src (inBase + k))

/-- Fill loop of reshape (lines 53-55): out[channel] = maxValue for channel in
[srcChannelCount, srcChannelCount + n); outBase already includes the
srcChannelCount offset. -/
def fillChans {α : Type} (v : α) (outBase : Nat) (m : Nat → α) : Nat → Nat → α
  | 0 => m
  | k+1 => writeAt (fillChans v outBase m k) (outBase + k) v

/-- One word iteration of reshape (lines 49-58): in advances srcChannelCount
components and out advances dstChannelCount components per word, so word w
reads at base w * srcCC and writes at base w * dstCC. -/
def reshapeWord {α : Type} (srcCC dstCC : Nat) (maxValue : α) (src : Nat → α)
    (w : Nat) (m : Nat → α) : Nat → α :=
  fillChans maxValue (w * dstCC + srcCC)
    (copyChans src (w * srcCC) (w * dstCC) m (min srcCC dstCC)) (dstCC - srcCC)

/-- Word loop of reshape over words [0, n), ascending. -/
def reshapeLoop {α : Type} (srcCC dstCC : Nat) (maxValue : α) (src : Nat → α)
    (m : Nat → α) : Nat → Nat → α
  | 0 => m
  | k+1 => reshapeWord srcCC dstCC maxValue src k (reshapeLoop srcCC dstCC maxValue src m k)

/-- reshape<componentType, srcChannelCount, dstChannelCount> (part_000 lines
42-59) on component-addressed buffers: compSize is sizeof(componentType),
maxValue is getMaxValue of that type, and the word count is line 47's
(numSrcBytes / sizeof(componentType)) / srcChannelCount. -/
def reshape {α : Type} (compSize srcCC dstCC numSrcBytes : Nat) (maxValue : α)
    (src m : Nat → α) : Nat → α :=
  reshapeLoop srcCC dstCC maxValue src m (numSrcBytes / compSize / srcCC)

/-- The non-template reshapeImage dispatcher (part_000 lines 90-147).  cds
abstracts the external PixelBufferDescriptor::computeDataSize collaborator
(format, type, stride-or-width, 1, alignment); fconv abstracts line 77 for
pairs involving FLOAT.  Returns the success flag together with the resulting
destination memory; every return-false path leaves the buffer untouched,
mirroring the source, where those paths precede any buffer access. -/
def reshapeImageDispatch
    (cds : PixelDataFormat → PixelDataType → Nat → Nat → Nat → Nat)
    (fconv : PixelDataType → PixelDataType → Nat → Nat)
    (dst : PixelBufferDescriptor) (srcType : PixelDataType) (srcMem : Mem)
    (srcBytesPerRow imgWidth height : Nat) (swizzle : Bool) : Bool × Mem :=
  match formatChannels dst.format with
  | none => (false, dst.buffer)
  | some dstChannelCount =>
    if supportedType dst.type && supportedType srcType then
      (true, reshapeImage
        ⟨typeSize dst.type, typeSize srcType, convOf fconv dst.type srcType,
         maxValuePat dst.type, srcMem, srcBytesPerRow,
         cds dst.format dst.type (if dst.stride = 0 then imgWidth else dst.stride) 1 dst.alignment,
         dstChannelCount, height, swizzle⟩ dst.buffer)
    else (false, dst.buffer)

end DataReshaper

/-- Stub computeDataSize collaborator used by concrete instantiations. -/
def cds0 : PixelDataFormat → PixelDataType → Nat → Nat → Nat → Nat :=
  fun _ _ _ _ _ => 0

/-- Stub float-pair conversion used by concrete instantiations. -/
def fconv0 : PixelDataType → PixelDataType → Nat → Nat := fun _ _ v => v

/-- Descriptor with an unsupported destination format (single-channel R). -/
def dstBad : PixelBufferDescriptor :=
  ⟨PixelDataFormat.R, PixelDataType.UBYTE, 0, 1, fun _ => 3⟩

/-- Descriptor with a supported format and type. -/
def dstOk : PixelBufferDescriptor :=
  ⟨PixelDataFormat.RGBA, PixelDataType.UBYTE, 0, 1, fun _ => 9⟩

/-- Kernel arguments of reshapeImage<float, uint8_t> for a source row of 8
bytes (a 2-pixel 4-channel uint8_t row): dstSize = sizeof(float) = 4,
srcSize = sizeof(uint8_t) = 1. -/
def AC1 : KernelArgs :=
  ⟨4, 1, fun v => v, 0x3f800000, fun _ => 1, 8, 32, 4, 1, false⟩

/-- Canary destination memory for the C1 evaluation. -/
def memC1 : Mem := fun _ => 7

/-- Source memory holding one 4-channel uint32_t pixel whose every channel is
the value 2 (little-endian bytes 02 00 00 00 per component). -/
def srcMemC3 : Mem := fun a => if a % 4 = 0 then 2 else 0

/-- Canary destination memory for the C3 evaluation. -/
def memC3 : Mem := fun _ => 7

/-- Kernel arguments of reshapeImage<uint32_t, uint32_t> on a 1-by-1 image. -/
def AC3 : KernelArgs :=
  ⟨4, 4, cppConvExprPat .u32 .u32, 0xffffffff, srcMemC3, 16, 16, 4, 1, false⟩

/-- Concrete single-byte-component kernel arguments with swizzle on, used to
instantiate the swizzle theorem. -/
def AW5 : KernelArgs :=
  ⟨1, 1, fun v => v % 256, 0xff, fun a => a + 1, 4, 4, 4, 1, true⟩

/-- Blank destination memory for the swizzle instantiation. -/
def memW5 : Mem := fun _ => 0

/-- Concrete kernel arguments with row padding (dstBytesPerRow 8 against 4
written bytes per row), used to instantiate the frame theorem. -/
def A9 : KernelArgs :=
  ⟨1, 1, fun v => v, 0xff, fun _ => 0, 4, 8, 4, 2, false⟩

/-- Canary destination memory for the frame instantiation. -/
def mem9 : Mem := fun _ => 11

/-- Byte-valued source memory for the kernel-equivalence instantiation. -/
def src10 : Mem := fun a => a % 256

/-- Blank destination memory for the kernel-equivalence instantiation. -/
def mem10 : Mem := fun _ => 0

/-- Source components for the generic-reshape instantiation. -/
def src6 : Nat → Nat := fun i => i + 10

/-- Blank destination for the generic-reshape instantiation. -/
def mem6 : Nat → Nat := fun _ => 0

namespace DataReshaper

theorem writeComp_ne (m : Mem) (a s v x : Nat) (h : ¬(a ≤ x ∧ x < a + s)) :
    writeComp m a s v x = m x := by
  simp [writeComp, h]

theorem readComp_congr (s : Nat) (m1 m2 : Mem) (a : Nat)
    (h : ∀ j, j < s → m1 (a + j) = m2 (a + j)) :
    readComp m1 a s = readComp m2 a s := by
  induction s generalizing a with
  | zero => rfl
  | succ k ih =>
    have h0 : m1 a = m2 a := by simpa using h 0 (Nat.succ_pos k)
    have ht : readComp m1 (a+1) k = readComp m2 (a+1) k := by
      apply ih
      intro j hj
      have e : a + 1 + j = a + (j + 1) := by omega
      rw [e]
      exact h (j + 1) (by omega)
    simp [readComp, h0, ht]

theorem readComp_writeComp (s : Nat) (v : Nat) (m : Mem) (a : Nat) :
    readComp (writeComp m a s v) a s = v % 256 ^ s := by
  induction s generalizing v m a with
  | zero => simp [readComp, Nat.mod_one]
  | succ k ih =>
    have hhead : writeComp m a (k+1) v a = v % 256 := by
      have hc : a ≤ a ∧ a < a + (k+1) := by omega
      simp [writeComp, hc]
    have htail : readComp (writeComp m a (k+1) v) (a+1) k
        = readComp (writeComp m (a+1) k (v / 256)) (a+1) k := by
      apply readComp_congr
      intro j hj
      show writeComp m a (k+1) v (a+1+j) = writeComp m (a+1) k (v / 256) (a+1+j)
      have hc1 : a ≤ a+1+j ∧ a+1+j < a + (k+1) := by omega
      have hc2 : a+1 ≤ a+1+j ∧ a+1+j < (a+1) + k := by omega
      simp only [writeComp, if_pos hc1, if_pos hc2]
      have e1 : a + 1 + j - a = j + 1 := by omega
      have e2 : a + 1 + j - (a + 1) = j := by omega
      rw [e1, e2, Nat.div_div_eq_div_mul]
      congr 1
      rw [pow_succ, Nat.mul_comm]
    calc readComp (writeComp m a (k+1) v) a (k+1)
        = writeComp m a (k+1) v a + 256 * readComp (writeComp m a (k+1) v) (a+1) k := rfl
      _ = v % 256 + 256 * ((v / 256) % 256 ^ k) := by rw [hhead, htail, ih]
      _ = v % 256 ^ (k+1) := by rw [pow_succ', Nat.mod_mul]

theorem dstAddr_pixel_bound (A : KernelArgs) (r c ch : Nat) (hch : ch < A.dstCC) :
    r * A.dstBPR + c * A.dstCC * A.dstSize ≤ dstAddr A r c ch
  ∧ dstAddr A r c ch + A.dstSize ≤ r * A.dstBPR + (c+1) * A.dstCC * A.dstSize := by
  unfold dstAddr
  constructor
  · have h1 : c * A.dstCC * A.dstSize ≤ (c * A.dstCC + ch) * A.dstSize :=
      Nat.mul_le_mul_right _ (Nat.le_add_right _ _)
    omega
  · have h3 : c * A.dstCC + ch + 1 ≤ (c+1) * A.dstCC := by
      have h4 : (c+1) * A.dstCC = c * A.dstCC + A.dstCC := by ring
      omega
    have h2 : (c * A.dstCC + ch + 1) * A.dstSize ≤ (c+1) * A.dstCC * A.dstSize :=
      Nat.mul_le_mul_right _ h3
    have h5 : (c * A.dstCC + ch + 1) * A.dstSize
        = (c * A.dstCC + ch) * A.dstSize + A.dstSize := by ring
    omega

theorem dstAddr_row_bound (A : KernelArgs) (r c ch : Nat)
    (hc : c < width A) (hch : ch < A.dstCC) :
    r * A.dstBPR ≤ dstAddr A r c ch
  ∧ dstAddr A r c ch + A.dstSize ≤ r * A.dstBPR + width A * A.dstCC * A.dstSize := by
  have hp := dstAddr_pixel_bound A r c ch hch
  have h1 : (c+1) * A.dstCC * A.dstSize ≤ width A * A.dstCC * A.dstSize :=
    Nat.mul_le_mul_right _ (Nat.mul_le_mul_right _ hc)
  omega

theorem dstAddr_lt_of_channel_lt (A : KernelArgs) (r c ch k : Nat) (h : ch < k) :
    dstAddr A r c ch + A.dstSize ≤ dstAddr A r c k := by
  unfold dstAddr
  have h2 : (c * A.dstCC + ch + 1) * A.dstSize ≤ (c * A.dstCC + k) * A.dstSize :=
    Nat.mul_le_mul_right _ (by omega)
  have h5 : (c * A.dstCC + ch + 1) * A.dstSize
      = (c * A.dstCC + ch) * A.dstSize + A.dstSize := by ring
  omega

theorem chanLoop_frame (A : KernelArgs) (r c : Nat) (m : Mem) (n x : Nat)
    (h : ∀ ch, ch < n → ¬(dstAddr A r c ch ≤ x ∧ x < dstAddr A r c ch + A.dstSize)) :
    chanLoop A r c m n x = m x := by
  induction n with
  | zero => rfl
  | succ k ih =>
    calc chanLoop A r c m (k+1) x
        = writeComp (chanLoop A r c m k) (dstAddr A r c k) A.dstSize (chanVal A r c k) x := rfl
      _ = chanLoop A r c m k x := writeComp_ne _ _ _ _ _ (h k (Nat.lt_succ_self k))
      _ = m x := ih (fun ch hch => h ch (Nat.lt_succ_of_lt hch))

theorem chanFill_frame (A : KernelArgs) (r c : Nat) (m : Mem) (n x : Nat)
    (h : ∀ k, k < n → ¬(dstAddr A r c (4+k) ≤ x ∧ x < dstAddr A r c (4+k) + A.dstSize)) :
    chanFill A r c m n x = m x := by
  induction n with
  | zero => rfl
  | succ k ih =>
    calc chanFill A r c m (k+1) x
        = writeComp (chanFill A r c m k) (dstAddr A r c (4+k)) A.dstSize A.dmax x := rfl
      _ = chanFill A r c m k x := writeComp_ne _ _ _ _ _ (h k (Nat.lt_succ_self k))
      _ = m x := ih (fun j hj => h j (Nat.lt_succ_of_lt hj))

theorem writePixel_frame (A : KernelArgs) (r c : Nat) (m : Mem) (x : Nat)
    (h : ¬(r * A.dstBPR + c * A.dstCC * A.dstSize ≤ x
          ∧ x < r * A.dstBPR + (c+1) * A.dstCC * A.dstSize)) :
    writePixel A r c m x = m x := by
  unfold writePixel
  have hfill : chanFill A r c (chanLoop A r c m (minCC A)) (A.dstCC - 4) x
      = chanLoop A r c m (minCC A) x := by
    apply chanFill_frame
    intro k hk hx
    exact h ((dstAddr_pixel_bound A r c (4+k) (by omega)).imp
      (fun h1 => le_trans h1 hx.1) (fun h2 => lt_of_lt_of_le hx.2 h2))
  rw [hfill]
  apply chanLoop_frame
  intro ch hch hx
  have hcc : ch < A.dstCC := lt_of_lt_of_le hch (Nat.min_le_right _ _)
  exact h ((dstAddr_pixel_bound A r c ch hcc).imp
    (fun h1 => le_trans h1 hx.1) (fun h2 => lt_of_lt_of_le hx.2 h2))

theorem colLoop_frame (A : KernelArgs) (r : Nat) (m : Mem) (n x : Nat)
    (h : ¬(r * A.dstBPR ≤ x ∧ x < r * A.dstBPR + n * A.dstCC * A.dstSize)) :
    colLoop A r m n x = m x := by
  induction n with
  | zero => rfl
  | succ k ih =>
    have hmono : k * A.dstCC * A.dstSize ≤ (k+1) * A.dstCC * A.dstSize :=
      Nat.mul_le_mul_right _ (Nat.mul_le_mul_right _ (Nat.le_succ k))
    calc colLoop A r m (k+1) x = writePixel A r k (colLoop A r m k) x := rfl
      _ = colLoop A r m k x := by
          apply writePixel_frame
          intro hx
          exact h ⟨by omega, hx.2⟩
      _ = m x := ih (fun hx => h ⟨hx.1, by omega⟩)

theorem rowLoop_frame (A : KernelArgs) (m : Mem) (n x : Nat)
    (h : ∀ r, r < n →
      ¬(r * A.dstBPR ≤ x ∧ x < r * A.dstBPR + width A * A.dstCC * A.dstSize)) :
    rowLoop A m n x = m x := by
  induction n with
  | zero => rfl
  | succ k ih =>
    calc rowLoop A m (k+1) x = colLoop A k (rowLoop A m k) (width A) x := rfl
      _ = rowLoop A m k x := colLoop_frame _ _ _ _ _ (h k (Nat.lt_succ_self k))
      _ = m x := ih (fun r hr => h r (Nat.lt_succ_of_lt hr))

theorem chanLoop_read (A : KernelArgs) (r c : Nat) (m : Mem) (n ch : Nat) (hch : ch < n) :
    readComp (chanLoop A r c m n) (dstAddr A r c ch) A.dstSize
      = chanVal A r c ch % 256 ^ A.dstSize := by
  induction n with
  | zero => omega
  | succ k ih =>
    rcases Nat.lt_succ_iff_lt_or_eq.mp hch with hlt | heq
    · have hstep : readComp (chanLoop A r c m (k+1)) (dstAddr A r c ch) A.dstSize
          = readComp (chanLoop A r c m k) (dstAddr A r c ch) A.dstSize := by
        apply readComp_congr
        intro j hj
        show writeComp (chanLoop A r c m k) (dstAddr A r c k) A.dstSize
              (chanVal A r c k) (dstAddr A r c ch + j) = _
        apply writeComp_ne
        have hle := dstAddr_lt_of_channel_lt A r c ch k hlt
        omega
      rw [hstep]
      exact ih hlt
    · subst heq
      show readComp (writeComp (chanLoop A r c m ch) (dstAddr A r c ch) A.dstSize
            (chanVal A r c ch)) (dstAddr A r c ch) A.dstSize = _
      exact readComp_writeComp _ _ _ _

theorem chanFill_read_low (A : KernelArgs) (r c : Nat) (m : Mem) (n ch : Nat) (hch : ch < 4) :
    readComp (chanFill A r c m n) (dstAddr A r c ch) A.dstSize
      = readComp m (dstAddr A r c ch) A.dstSize := by
  induction n with
  | zero => rfl
  | succ k ih =>
    have hstep : readComp (chanFill A r c m (k+1)) (dstAddr A r c ch) A.dstSize
        = readComp (chanFill A r c m k) (dstAddr A r c ch) A.dstSize := by
      apply readComp_congr
      intro j hj
      show writeComp (chanFill A r c m k) (dstAddr A r c (4+k)) A.dstSize A.dmax
            (dstAddr A r c ch + j) = _
      apply writeComp_ne
      have hle := dstAddr_lt_of_channel_lt A r c ch (4+k) (by omega)
      omega
    rw [hstep]
    exact ih

theorem writePixel_read (A : KernelArgs) (r c : Nat) (m : Mem) (ch : Nat)
    (hch : ch < minCC A) :
    readComp (writePixel A r c m) (dstAddr A r c ch) A.dstSize
      = chanVal A r c ch % 256 ^ A.dstSize := by
  have hch4 : ch < 4 := lt_of_lt_of_le hch (Nat.min_le_left _ _)
  unfold writePixel
  rw [chanFill_read_low A r c _ _ ch hch4]
  exact chanLoop_read A r c m (minCC A) ch hch

theorem colLoop_read (A : KernelArgs) (r : Nat) (m : Mem) (n c ch : Nat)
    (hc : c < n) (hch : ch < minCC A) :
    readComp (colLoop A r m n) (dstAddr A r c ch) A.dstSize
      = chanVal A r c ch % 256 ^ A.dstSize := by
  have hcc : ch < A.dstCC := lt_of_lt_of_le hch (Nat.min_le_right _ _)
  induction n with
  | zero => omega
  | succ k ih =>
    rcases Nat.lt_succ_iff_lt_or_eq.mp hc with hlt | heq
    · have hstep : readComp (colLoop A r m (k+1)) (dstAddr A r c ch) A.dstSize
          = readComp (colLoop A r m k) (dstAddr A r c ch) A.dstSize := by
        apply readComp_congr
        intro j hj
        show writePixel A r k (colLoop A r m k) (dstAddr A r c ch + j) = _
        apply writePixel_frame
        have hp := dstAddr_pixel_bound A r c ch hcc
        have hmono : (c+1) * A.dstCC * A.dstSize ≤ k * A.dstCC * A.dstSize :=
          Nat.mul_le_mul_right _ (Nat.mul_le_mul_right _ (by omega))
        intro hx
        omega
      rw [hstep]
      exact ih hlt
    · subst heq
      show readComp (writePixel A r c (colLoop A r m c)) (dstAddr A r c ch) A.dstSize = _
      exact writePixel_read A r c _ ch hch

theorem rowLoop_read (A : KernelArgs) (m : Mem) (n r c ch : Nat)
    (hsep : width A * A.dstCC * A.dstSize ≤ A.dstBPR)
    (hr : r < n) (hc : c < width A) (hch : ch < minCC A) :
    readComp (rowLoop A m n) (dstAddr A r c ch) A.dstSize
      = chanVal A r c ch % 256 ^ A.dstSize := by
  have hcc : ch < A.dstCC := lt_of_lt_of_le hch (Nat.min_le_right _ _)
  induction n with
  | zero => omega
  | succ k ih =>
    rcases Nat.lt_succ_iff_lt_or_eq.mp hr with hlt | heq
    · have hstep : readComp (rowLoop A m (k+1)) (dstAddr A r c ch) A.dstSize
          = readComp (rowLoop A m k) (dstAddr A r c ch) A.dstSize := by
        apply readComp_congr
        intro j hj
        show colLoop A k (rowLoop A m k) (width A) (dstAddr A r c ch + j) = _
        apply colLoop_frame
        have hrow := dstAddr_row_bound A r c ch hc hcc
        have hr1 : (r+1) * A.dstBPR = r * A.dstBPR + A.dstBPR := by ring
        have hr2 : (r+1) * A.dstBPR ≤ k * A.dstBPR :=
          Nat.mul_le_mul_right _ (by omega)
        intro hx
        omega
      rw [hstep]
      exact ih hlt
    · subst heq
      show readComp (colLoop A r (rowLoop A m r) (width A)) (dstAddr A r c ch) A.dstSize = _
      exact colLoop_read A r _ (width A) c ch hc hch

theorem reshapeImage_read (A : KernelArgs) (m : Mem) (r c ch : Nat)
    (hsep : width A * A.dstCC * A.dstSize ≤ A.dstBPR)
    (hr : r < A.height) (hc : c < width A) (hch : ch < minCC A) :
    readComp (reshapeImage A m) (dstAddr A r c ch) A.dstSize
      = chanVal A r c ch % 256 ^ A.dstSize :=
  rowLoop_read A m A.height r c ch hsep hr hc hch

theorem chanLoop_conv_congr (A : KernelArgs) (g : Nat → Nat)
    (h : ∀ a, g (readComp A.srcMem a A.srcSize) = A.conv (readComp A.srcMem a A.srcSize))
    (r c : Nat) (m : Mem) (n : Nat) :
    chanLoop { A with conv := g } r c m n = chanLoop A r c m n := by
  induction n with
  | zero => rfl
  | succ k ih =>
    show writeComp (chanLoop { A with conv := g } r c m k) _ _ _ = _
    rw [ih]
    have hv : chanVal { A with conv := g } r c k = chanVal A r c k := h _
    rw [hv]
    rfl

theorem chanFill_conv_congr (A : KernelArgs) (g : Nat → Nat) (r c : Nat) (m : Mem) (n : Nat) :
    chanFill { A with conv := g } r c m n = chanFill A r c m n := by
  induction n with
  | zero => rfl
  | succ k ih =>
    show writeComp (chanFill { A with conv := g } r c m k) _ _ _ = _
    rw [ih]
    rfl

theorem writePixel_conv_congr (A : KernelArgs) (g : Nat → Nat)
    (h : ∀ a, g (readComp A.srcMem a A.srcSize) = A.conv (readComp A.srcMem a A.srcSize))
    (r c : Nat) (m : Mem) :
    writePixel { A with conv := g } r c m = writePixel A r c m := by
  show chanFill { A with conv := g } r c (chanLoop { A with conv := g } r c m _) _ = _
  rw [chanLoop_conv_congr A g h, chanFill_conv_congr A g]
  rfl

theorem colLoop_conv_congr (A : KernelArgs) (g : Nat → Nat)
    (h : ∀ a, g (readComp A.srcMem a A.srcSize) = A.conv (readComp A.srcMem a A.srcSize))
    (r : Nat) (m : Mem) (n : Nat) :
    colLoop { A with conv := g } r m n = colLoop A r m n := by
  induction n with
  | zero => rfl
  | succ k ih =>
    show writePixel { A with conv := g } r k (colLoop { A with conv := g } r m k) = _
    rw [ih, writePixel_conv_congr A g h]
    rfl

theorem rowLoop_conv_congr (A : KernelArgs) (g : Nat → Nat)
    (h : ∀ a, g (readComp A.srcMem a A.srcSize) = A.conv (readComp A.srcMem a A.srcSize))
    (m : Mem) (n : Nat) :
    rowLoop { A with conv := g } m n = rowLoop A m n := by
  induction n with
  | zero => rfl
  | succ k ih =>
    show colLoop { A with conv := g } k (rowLoop { A with conv := g } m k) _ = _
    rw [ih, colLoop_conv_congr A g h]
    rfl

theorem reshapeImage_conv_congr (A : KernelArgs) (g : Nat → Nat)
    (h : ∀ a, g (readComp A.srcMem a A.srcSize) = A.conv (readComp A.srcMem a A.srcSize))
    (m : Mem) :
    reshapeImage { A with conv := g } m = reshapeImage A m :=
  rowLoop_conv_congr A g h m A.height

theorem readComp_one (m : Mem) (a : Nat) : readComp m a 1 = m a := by
  simp [readComp]

theorem valToPat_lt (t : IntCT) (v : Int) : valToPat t v < 2 ^ t.bits := by
  unfold valToPat
  have hpos : (0:Int) < (((2 ^ t.bits : Nat) : Nat) : Int) := by
    cases t <;> decide
  have hlt := Int.emod_lt_of_pos v hpos
  omega

theorem cppConvExprPat_u8_id (p : Nat) (hp : p < 256) :
    cppConvExprPat .u8 .u8 p = p := by
  have hmod : p % 256 = p := Nat.mod_eq_of_lt hp
  unfold cppConvExprPat cppExprVal patToVal valToPat
  simp only [IntCT.promotesToInt, Bool.and_self, if_pos, maxValInt, IntCT.bits, hmod]
  have h1 : wrap32s ((p : Nat) : Int) = ((p : Nat) : Int) := by
    unfold wrap32s
    have he : ((p : Nat) : Int) % 4294967296 = ((p : Nat) : Int) :=
      Int.emod_eq_of_lt (by omega) (by omega)
    rw [he]
    rw [if_pos (by omega)]
  have h2 : wrap32s (255 : Int) = 255 := by
    unfold wrap32s
    rw [Int.emod_eq_of_lt (by omega) (by omega)]
    rw [if_pos (by omega)]
  have h3 : wrap32s (((p : Nat) : Int) * 255) = ((p : Nat) : Int) * 255 := by
    unfold wrap32s
    have hb : ((p : Nat) : Int) * 255 < 4294967296 := by omega
    have he : ((p : Nat) : Int) * 255 % 4294967296 = ((p : Nat) : Int) * 255 :=
      Int.emod_eq_of_lt (by omega) hb
    rw [he]
    rw [if_pos (by omega)]
  rw [h1, h2, h3]
  unfold cppDivT
  rw [if_pos (show (0:Int) ≤ ((p : Nat) : Int) * 255 by omega)]
  have h4 : ((((p : Nat) : Int) * 255).toNat / (255 : Int).toNat : Nat) = p := by
    have : (((p : Nat) : Int) * 255).toNat = p * 255 := by omega
    rw [this]
    simp [Nat.mul_div_cancel]
  rw [h4]
  omega

theorem writeAt_same {α : Type} (m : Nat → α) (i : Nat) (v : α) : writeAt m i v i = v := by
  simp [writeAt]

theorem writeAt_ne {α : Type} (m : Nat → α) (i : Nat) (v : α) (x : Nat) (h : x ≠ i) :
    writeAt m i v x = m x := by
  simp [writeAt, h]

theorem copyChans_read {α : Type} (src : Nat → α) (inBase outBase : Nat)
    (m : Nat → α) (n ch : Nat) (hch : ch < n) :
    copyChans src inBase outBase m n (outBase + ch) = src (inBase + ch) := by
  induction n with
  | zero => omega
  | succ k ih =>
    rcases Nat.lt_succ_iff_lt_or_eq.mp hch with hlt | heq
    · calc copyChans src inBase outBase m (k+1) (outBase + ch)
          = writeAt (copyChans src inBase outBase m k) (outBase + k)
              (src (inBase + k)) (outBase + ch) := rfl
        _ = copyChans src inBase outBase m k (outBase + ch) :=
            writeAt_ne _ _ _ _ (by omega)
        _ = src (inBase + ch) := ih hlt
    · subst heq
      exact writeAt_same _ _ _

theorem fillChans_read {α : Type} (v : α) (outBase : Nat) (m : Nat → α)
    (n ch : Nat) (hch : ch < n) :
    fillChans v outBase m n (outBase + ch) = v := by
  induction n with
  | zero => omega
  | succ k ih =>
    rcases Nat.lt_succ_iff_lt_or_eq.mp hch with hlt | heq
    · calc fillChans v outBase m (k+1) (outBase + ch)
          = writeAt (fillChans v outBase m k) (outBase + k) v (outBase + ch) := rfl
        _ = fillChans v outBase m k (outBase + ch) := writeAt_ne _ _ _ _ (by omega)
        _ = v := ih hlt
    · subst heq
      exact writeAt_same _ _ _

theorem fillChans_frame {α : Type} (v : α) (outBase : Nat) (m : Nat → α)
    (n x : Nat) (h : ∀ k, k < n → x ≠ outBase + k) :
    fillChans v outBase m n x = m x := by
  induction n with
  | zero => rfl
  | succ k ih =>
    calc fillChans v outBase m (k+1) x
        = writeAt (fillChans v outBase m k) (outBase + k) v x := rfl
      _ = fillChans v outBase m k x := writeAt_ne _ _ _ _ (h k (Nat.lt_succ_self k))
      _ = m x := ih (fun j hj => h j (Nat.lt_succ_of_lt hj))

theorem copyChans_frame {α : Type} (src : Nat → α) (inBase outBase : Nat)
    (m : Nat → α) (n x : Nat) (h : ∀ k, k < n → x ≠ outBase + k) :
    copyChans src inBase outBase m n x = m x := by
  induction n with
  | zero => rfl
  | succ k ih =>
    calc copyChans src inBase outBase m (k+1) x
        = writeAt (copyChans src inBase outBase m k) (outBase + k) (src (inBase + k)) x := rfl
      _ = copyChans src inBase outBase m k x := writeAt_ne _ _ _ _ (h k (Nat.lt_succ_self k))
      _ = m x := ih (fun j hj => h j (Nat.lt_succ_of_lt hj))

theorem reshapeWord_frame {α : Type} (srcCC dstCC : Nat) (maxValue : α)
    (src : Nat → α) (w : Nat) (m : Nat → α) (x : Nat)
    (h : ¬(w * dstCC ≤ x ∧ x < (w+1) * dstCC)) :
    reshapeWord srcCC dstCC maxValue src w m x = m x := by
  have hmul : (w+1) * dstCC = w * dstCC + dstCC := by ring
  unfold reshapeWord
  rw [fillChans_frame]
  · rw [copyChans_frame]
    intro k hk
    have : k < dstCC := lt_of_lt_of_le hk (Nat.min_le_right _ _)
    omega
  · intro k hk
    omega

theorem reshapeWord_read_copy {α : Type} (srcCC dstCC : Nat) (maxValue : α)
    (src : Nat → α) (w : Nat) (m : Nat → α) (ch : Nat) (hch : ch < min srcCC dstCC) :
    reshapeWord srcCC dstCC maxValue src w m (w * dstCC + ch) = src (w * srcCC + ch) := by
  have hs : ch < srcCC := lt_of_lt_of_le hch (Nat.min_le_left _ _)
  unfold reshapeWord
  rw [fillChans_frame]
  · exact copyChans_read src _ _ m _ ch hch
  · intro k hk
    omega

theorem reshapeWord_read_fill {α : Type} (srcCC dstCC : Nat) (maxValue : α)
    (src : Nat → α) (w : Nat) (m : Nat → α) (ch : Nat)
    (h1 : srcCC ≤ ch) (h2 : ch < dstCC) :
    reshapeWord srcCC dstCC maxValue src w m (w * dstCC + ch) = maxValue := by
  unfold reshapeWord
  have he : w * dstCC + ch = (w * dstCC + srcCC) + (ch - srcCC) := by omega
  rw [he]
  exact fillChans_read _ _ _ _ _ (by omega)

theorem reshapeLoop_read_copy {α : Type} (srcCC dstCC : Nat) (maxValue : α)
    (src : Nat → α) (m : Nat → α) (n w ch : Nat)
    (hw : w < n) (hch : ch < min srcCC dstCC) :
    reshapeLoop srcCC dstCC maxValue src m n (w * dstCC + ch) = src (w * srcCC + ch) := by
  have hd : ch < dstCC := lt_of_lt_of_le hch (Nat.min_le_right _ _)
  induction n with
  | zero => omega
  | succ k ih =>
    rcases Nat.lt_succ_iff_lt_or_eq.mp hw with hlt | heq
    · calc reshapeLoop srcCC dstCC maxValue src m (k+1) (w * dstCC + ch)
          = reshapeWord srcCC dstCC maxValue src k
              (reshapeLoop srcCC dstCC maxValue src m k) (w * dstCC + ch) := rfl
        _ = reshapeLoop srcCC dstCC maxValue src m k (w * dstCC + ch) := by
            apply reshapeWord_frame
            have hm : (w+1) * dstCC ≤ k * dstCC := Nat.mul_le_mul_right _ (by omega)
            have hmul : (w+1) * dstCC = w * dstCC + dstCC := by ring
            omega
        _ = src (w * srcCC + ch) := ih hlt
    · subst heq
      exact reshapeWord_read_copy _ _ _ _ _ _ _ hch

theorem reshapeLoop_read_fill {α : Type} (srcCC dstCC : Nat) (maxValue : α)
    (src : Nat → α) (m : Nat → α) (n w ch : Nat)
    (hw : w < n) (h1 : srcCC ≤ ch) (h2 : ch < dstCC) :
    reshapeLoop srcCC dstCC maxValue src m n (w * dstCC + ch) = maxValue := by
  induction n with
  | zero => omega
  | succ k ih =>
    rcases Nat.lt_succ_iff_lt_or_eq.mp hw with hlt | heq
    · calc reshapeLoop srcCC dstCC maxValue src m (k+1) (w * dstCC + ch)
          = reshapeWord srcCC dstCC maxValue src k
              (reshapeLoop srcCC dstCC maxValue src m k) (w * dstCC + ch) := rfl
        _ = reshapeLoop srcCC dstCC maxValue src m k (w * dstCC + ch) := by
            apply reshapeWord_frame
            have hm : (w+1) * dstCC ≤ k * dstCC := Nat.mul_le_mul_right _ (by omega)
            have hmul : (w+1) * dstCC = w * dstCC + dstCC := by ring
            omega
        _ = maxValue := ih hlt
    · subst heq
      exact reshapeWord_read_fill _ _ _ _ _ _ _ h1 h2

/-- Claim C1, refuted by evaluating the code (code bug): the kernel's line 67
computes width from the DESTINATION component size, not the source one.  For
reshapeImage<float, uint8_t> on a source row of 8 bytes (two 4-channel
uint8_t pixels, the spec's concrete scenario), the code's width is
8 / sizeof(float) / 4 = 0 while the claimed pixel count is
8 / (sizeof(uint8_t) * 4) = 2, and the kernel consequently writes nothing. -/
theorem c1_width_uses_dst_component_size :
    width AC1 = 0 ∧ 8 / (1 * 4) = 2 ∧ reshapeImage AC1 memC1 = memC1 :=
  ⟨rfl, rfl, rfl⟩

/-- Claim C2, refuted by evaluating the code (code bug): line 77 multiplies in
the 32-bit common type, so the rescale wraps instead of being computed with
wide-enough intermediate arithmetic.  For source type UBYTE and destination
type UINT, the dispatcher-selected conversion maps source value 255 to
16843008, while the exact proportional rescale 255 * 0xffffffff / 255 is
0xffffffff. -/
theorem c2_rescale_wraps :
    convOf fconv0 PixelDataType.UINT PixelDataType.UBYTE 255 = 16843008
  ∧ 255 * 0xffffffff / 255 = 0xffffffff
  ∧ (16843008 : Nat) ≠ 0xffffffff := by
  refine ⟨by decide, by norm_num, by norm_num⟩

/-- Claim C3, refuted by evaluating the code (code bug): converting UINT to
UINT is not an exact copy.  The line-77 conversion maps the uint32_t value 2
to (2 * 0xffffffff mod 2^32) / 0xffffffff = 0, so a 1-by-1 UINT image whose
channels hold 2 comes out with channels holding 0: the first destination
component reads back 0 although the first source component reads 2. -/
theorem c3_identity_rescale_fails_uint :
    cppConvExprPat .u32 .u32 2 = 0
  ∧ readComp srcMemC3 0 4 = 2
  ∧ readComp (reshapeImage AC3 memC3) 0 4 = 0 := by
  refine ⟨by decide, by decide, by decide⟩

/-- Claim C7: getMaxValue returns exactly 255 for 8-bit unsigned, 1.0 for
32-bit float, 0x7fffffff for 32-bit signed, 0xffffffff for 32-bit unsigned,
and the bit pattern 0x3c00 for the 16-bit half-coded unsigned type, each as a
value of that type's carrier. -/
theorem c7_max_value_table :
    getMaxValue CompType.ubyte = 255
  ∧ getMaxValue CompType.float32 = 1
  ∧ getMaxValue CompType.int32 = 0x7fffffff
  ∧ getMaxValue CompType.uint32 = 0xffffffff
  ∧ getMaxValue CompType.half = 0x3c00 :=
  ⟨rfl, rfl, rfl, rfl, rfl⟩

/-- Claim C9: the kernel writes only, for each row r < height, the first
width * dstChannelCount * sizeof(dstComponentType) bytes of that row (rows
spaced dstBytesPerRow apart); every byte outside those ranges keeps its prior
value. -/
theorem c9_kernel_frame (A : KernelArgs) (m : Mem) (x : Nat)
    (h : ∀ r, r < A.height →
      ¬(r * A.dstBPR ≤ x ∧ x < r * A.dstBPR + width A * A.dstCC * A.dstSize)) :
    reshapeImage A m x = m x :=
  rowLoop_frame A m A.height x h

/-- Witness for C9: a 2-row kernel with 4 written bytes per row and an 8-byte
row stride leaves the padding byte at address 5 untouched. -/
theorem c9_witness : reshapeImage A9 mem9 5 = 11 :=
  c9_kernel_frame A9 mem9 5 (by decide)

/-- Claim C4: whenever the destination format is neither RGB nor RGBA, or the
destination or source numeric type is outside {UBYTE, FLOAT, INT, UINT}, the
dispatcher returns false and leaves every destination byte exactly as it
was. -/
theorem c4_dispatch_rejects_unwritten
    (cds : PixelDataFormat → PixelDataType → Nat → Nat → Nat → Nat)
    (fconv : PixelDataType → PixelDataType → Nat → Nat)
    (dst : PixelBufferDescriptor) (srcType : PixelDataType) (srcMem : Mem)
    (srcBPR imgW h : Nat) (sw : Bool)
    (hbad : (dst.format ≠ PixelDataFormat.RGB ∧ dst.format ≠ PixelDataFormat.RGBA)
          ∨ supportedType dst.type = false ∨ supportedType srcType = false) :
    (reshapeImageDispatch cds fconv dst srcType srcMem srcBPR imgW h sw).1 = false
  ∧ ∀ a, (reshapeImageDispatch cds fconv dst srcType srcMem srcBPR imgW h sw).2 a
        = dst.buffer a := by
  unfold reshapeImageDispatch
  rcases hbad with ⟨h1, h2⟩ | h2 | h2
  · have hn : formatChannels dst.format = none := by
      cases hfmt : dst.format <;> simp_all [formatChannels]
    rw [hn]
    exact ⟨rfl, fun a => rfl⟩
  · cases hf : formatChannels dst.format with
    | none => exact ⟨rfl, fun a => rfl⟩
    | some k =>
      rw [h2]
      exact ⟨rfl, fun a => rfl⟩
  · cases hf : formatChannels dst.format with
    | none => exact ⟨rfl, fun a => rfl⟩
    | some k =>
      rw [h2]
      cases hdt2 : supportedType dst.type
      · exact ⟨rfl, fun a => rfl⟩
      · exact ⟨rfl, fun a => rfl⟩

/-- Witness for C4: a descriptor with destination format R is rejected and the
canary byte of its destination buffer is unchanged. -/
theorem c4_witness :
    (reshapeImageDispatch cds0 fconv0 dstBad PixelDataType.UBYTE (fun _ => 0) 4 1 1 false).1
      = false
  ∧ (reshapeImageDispatch cds0 fconv0 dstBad PixelDataType.UBYTE (fun _ => 0) 4 1 1 false).2 5
      = 3 := by
  have h := c4_dispatch_rejects_unwritten cds0 fconv0 dstBad PixelDataType.UBYTE
    (fun _ => 0) 4 1 1 false (Or.inl ⟨by decide, by decide⟩)
  exact ⟨h.1, (h.2 5).trans rfl⟩

/-- Claim C8: with a supported destination format (RGB or RGBA), supported
source and destination numeric types, and height = 0, the dispatcher returns
true and writes nothing to the destination buffer. -/
theorem c8_height_zero_success_noop
    (cds : PixelDataFormat → PixelDataType → Nat → Nat → Nat → Nat)
    (fconv : PixelDataType → PixelDataType → Nat → Nat)
    (dst : PixelBufferDescriptor) (srcType : PixelDataType) (srcMem : Mem)
    (srcBPR imgW : Nat) (sw : Bool)
    (hfmt : dst.format = PixelDataFormat.RGB ∨ dst.format = PixelDataFormat.RGBA)
    (hdt : supportedType dst.type = true) (hst : supportedType srcType = true) :
    (reshapeImageDispatch cds fconv dst srcType srcMem srcBPR imgW 0 sw).1 = true
  ∧ ∀ a, (reshapeImageDispatch cds fconv dst srcType srcMem srcBPR imgW 0 sw).2 a
        = dst.buffer a := by
  unfold reshapeImageDispatch
  rcases hfmt with h | h <;>
    rw [h, hdt, hst] <;>
    exact ⟨rfl, fun a => rfl⟩

/-- Witness for C8: an RGBA/UBYTE destination with FLOAT source and zero
height reports success and leaves the canary buffer byte unchanged. -/
theorem c8_witness :
    (reshapeImageDispatch cds0 fconv0 dstOk PixelDataType.FLOAT (fun _ => 0) 8 2 0 false).1
      = true
  ∧ (reshapeImageDispatch cds0 fconv0 dstOk PixelDataType.FLOAT (fun _ => 0) 8 2 0 false).2 0
      = 9 := by
  have h := c8_height_zero_success_noop cds0 fconv0 dstOk PixelDataType.FLOAT
    (fun _ => 0) 8 2 false (Or.inr rfl) rfl rfl
  exact ⟨h.1, (h.2 0).trans rfl⟩

/-- Claim C5: with the swizzle flag enabled, destination channel 0 of every
pixel holds the converted value of source channel 2 and destination channel 2
holds the converted value of source channel 0, while channels 1 and 3 read
back exactly what the swizzle-disabled kernel produces; the reordering acts
on the source read index only.  This holds for every conversion function,
hence for every supported component-type pair. -/
theorem c5_swizzle_reads_only (A : KernelArgs) (m m2 : Mem) (r c : Nat)
    (hsw : A.swizzle = true)
    (hcc : A.dstCC = 3 ∨ A.dstCC = 4)
    (hconv : ∀ v, A.conv v < 256 ^ A.dstSize)
    (hsep : width A * A.dstCC * A.dstSize ≤ A.dstBPR)
    (hr : r < A.height) (hc : c < width A) :
    (readComp (reshapeImage A m) (dstAddr A r c 0) A.dstSize
       = A.conv (readComp A.srcMem (r * A.srcBPR + (4 * c + 2) * A.srcSize) A.srcSize))
  ∧ (readComp (reshapeImage A m) (dstAddr A r c 2) A.dstSize
       = A.conv (readComp A.srcMem (r * A.srcBPR + (4 * c + 0) * A.srcSize) A.srcSize))
  ∧ (readComp (reshapeImage A m) (dstAddr A r c 1) A.dstSize
       = readComp (reshapeImage { A with swizzle := false } m2) (dstAddr A r c 1) A.dstSize)
  ∧ (A.dstCC = 4 →
       readComp (reshapeImage A m) (dstAddr A r c 3) A.dstSize
       = readComp (reshapeImage { A with swizzle := false } m2) (dstAddr A r c 3) A.dstSize) := by
  have hmcc : minCC A = A.dstCC := by
    unfold minCC
    rcases hcc with h | h <;> rw [h] <;> decide
  have hcc3 : 3 ≤ A.dstCC := by rcases hcc with h | h <;> omega
  have hch0 : (0:Nat) < minCC A := by omega
  have hch1 : (1:Nat) < minCC A := by omega
  have hch2 : (2:Nat) < minCC A := by omega
  refine ⟨?_, ?_, ?_, ?_⟩
  · have e := reshapeImage_read A m r c 0 hsep hr hc hch0
    rw [e]
    unfold chanVal srcAddr
    rw [hsw]
    exact Nat.mod_eq_of_lt (hconv _)
  · have e := reshapeImage_read A m r c 2 hsep hr hc hch2
    rw [e]
    unfold chanVal srcAddr
    rw [hsw]
    exact Nat.mod_eq_of_lt (hconv _)
  · have e1 := reshapeImage_read A m r c 1 hsep hr hc hch1
    have e2 := reshapeImage_read { A with swizzle := false } m2 r c 1 hsep hr hc hch1
    exact e1.trans e2.symm
  · intro h4
    have hch3 : (3:Nat) < minCC A := by omega
    have e1 := reshapeImage_read A m r c 3 hsep hr hc hch3
    have e2 := reshapeImage_read { A with swizzle := false } m2 r c 3 hsep hr hc hch3
    exact e1.trans e2.symm

/-- Witness for C5: a concrete single-byte four-channel pixel with swizzle on
has destination channel 0 equal to the converted source channel 2. -/
theorem c5_witness :
    readComp (reshapeImage AW5 memW5) (dstAddr AW5 0 0 0) AW5.dstSize
      = AW5.conv (readComp AW5.srcMem (0 * AW5.srcBPR + (4 * 0 + 2) * AW5.srcSize)
          AW5.srcSize) :=
  (c5_swizzle_reads_only AW5 memW5 memW5 0 0 rfl (Or.inr rfl)
    (fun v => by simpa using Nat.mod_lt v (by decide)) (by decide) (by decide)
    (by decide)).1

/-- Claim C6: the generic reshape processes exactly
numSrcBytes / (componentSize * srcChannelCount) pixels; for each pixel it
copies the first min(srcChannelCount, dstChannelCount) channels verbatim,
writes the type's maximum value to destination channels with index at least
srcChannelCount, and advances the source by srcChannelCount and the
destination by dstChannelCount components; in particular, 3-to-4 expansion
fills channel 3 of every pixel with the maximum value. -/
theorem c6_generic_reshape (t : CompType) (compSize srcCC dstCC numSrcBytes : Nat)
    (src m : Nat → t.carrier) :
    (numSrcBytes / compSize / srcCC = numSrcBytes / (compSize * srcCC))
  ∧ (∀ w, w < numSrcBytes / compSize / srcCC → ∀ ch, ch < min srcCC dstCC →
      reshape compSize srcCC dstCC numSrcBytes (getMaxValue t) src m (w * dstCC + ch)
        = src (w * srcCC + ch))
  ∧ (∀ w, w < numSrcBytes / compSize / srcCC → ∀ ch, srcCC ≤ ch → ch < dstCC →
      reshape compSize srcCC dstCC numSrcBytes (getMaxValue t) src m (w * dstCC + ch)
        = getMaxValue t)
  ∧ (∀ w, w < numSrcBytes / compSize / 3 →
      reshape compSize 3 4 numSrcBytes (getMaxValue t) src m (w * 4 + 3)
        = getMaxValue t) := by
  refine ⟨Nat.div_div_eq_div_mul _ _ _, ?_, ?_, ?_⟩
  · intro w hw ch hch
    exact reshapeLoop_read_copy _ _ _ _ _ _ _ _ hw hch
  · intro w hw ch h1 h2
    exact reshapeLoop_read_fill _ _ _ _ _ _ _ _ hw h1 h2
  · intro w hw
    exact reshapeLoop_read_fill _ _ _ _ _ _ _ _ hw (by omega) (by omega)

/-- Witness for C6: expanding two 3-channel uint8_t pixels to 4 channels fills
component 7 (pixel 1, channel 3) with 255 and copies component 6 (pixel 1,
channel 2) from source component 5. -/
theorem c6_witness :
    reshape 1 3 4 6 (getMaxValue CompType.ubyte) src6 mem6 7 = 255
  ∧ reshape 1 3 4 6 (getMaxValue CompType.ubyte) src6 mem6 6 = src6 5 := by
  have h := c6_generic_reshape CompType.ubyte 1 3 4 6 src6 mem6
  exact ⟨h.2.2.2 1 (by decide), h.2.1 1 (by decide) 2 (by decide)⟩

/-- Claim C10: on 8-bit unsigned components with identical source and
destination types, the rescaling kernel of the newer header produces exactly
the same destination bytes as the copy-only kernel of the older header, for
all buffers, strides, channel counts, heights and swizzle flags. -/
theorem c10_ubyte_kernels_agree (srcMem : Mem) (srcBPR dstBPR dstCC height : Nat)
    (sw : Bool) (m : Mem) (hsrc : ∀ a, srcMem a < 256) :
    reshapeImage ⟨1, 1, cppConvExprPat .u8 .u8, 0xff, srcMem, srcBPR, dstBPR,
        dstCC, height, sw⟩ m
      = reshapeImageOld 1 0xff srcMem srcBPR dstBPR dstCC height sw m := by
  have h : ∀ a, cppConvExprPat .u8 .u8 (readComp srcMem a 1)
      = (fun v => v) (readComp srcMem a 1) := by
    intro a
    rw [readComp_one]
    exact cppConvExprPat_u8_id (srcMem a) (hsrc a)
  exact reshapeImage_conv_congr
    ⟨1, 1, fun v => v, 0xff, srcMem, srcBPR, dstBPR, dstCC, height, sw⟩
    (cppConvExprPat .u8 .u8) h m

/-- Witness for C10: the two uint8_t kernels coincide on a concrete 2-row
image with byte-valued source memory. -/
theorem c10_witness :
    reshapeImage ⟨1, 1, cppConvExprPat .u8 .u8, 0xff, src10, 8, 8, 4, 2, true⟩ mem10
      = reshapeImageOld 1 0xff src10 8 8 4 2 true mem10 :=
  c10_ubyte_kernels_agree src10 8 8 4 2 true mem10 (fun a => Nat.mod_lt a (by decide))

end DataReshaper
